import Mathlib

/-!
Shallow embedding of the nrts-prc-api backend ("ACRFD") — verification of the
natural-language specification against the code.

The embedded pieces are:
* `api/helpers/actions.js` — the publish / unpublish / soft-delete state
  machine over tag-groups (lodash isEqual on arrays is ordered list equality,
  lodash remove deletes every match);
* `api/helpers/utils.js` — `getSkipLimitParameters` (pagination window) and
  the `$redact` visibility stage of `runDataQuery` (a document survives iff
  some tag-group is a subset, in the `$setIsSubset` sense, of the caller's
  role list); the same `$redact` condition appears verbatim in
  `api/controllers/document.js` (`getDocuments`);
* `ttlsUtils.js` — `deleteAllApplicationFeatures` (which calls the store's
  `deleteOne`, removing at most one matching document) followed by the
  sequential Feature re-creation of `updateFeatures`, and the
  interested-party assembly of `getApplicationByDispositionID` (whose
  membership test, lodash `includes`, compares objects by reference);
* `data_migration/migrateGeometryToGeometryCollection.js` — the
  geometry-collection migration.
-/

namespace Acrfd

/-- A stored record as `api/helpers/actions.js` sees it: the list of
tag-groups (`o.tags`, each group a list of role strings) and the soft-delete
flag (`o.isDeleted`). -/
structure DbRecord where
  tags : List (List String)
  isDeleted : Bool
deriving DecidableEq, Repr

/-- The `{code, message}` object passed to `reject` in `actions.js`. -/
structure ActionError where
  code : Nat
  message : String
deriving DecidableEq, Repr

namespace Actions

/-- `exports.isPublished` from `api/helpers/actions.js`: lodash `_.find` over
`o.tags` for an item with `_.isEqual(item, ['public'])`; returns the first
matching tag-group or undefined (here: `Option`). -/
def isPublished (o : DbRecord) : Option (List String) :=
  o.tags.find? (fun item => item == ["public"])

/-- `exports.publish` from `api/helpers/actions.js`: if a tag-group equal to
`['public']` is found, reject with `{code: 409, message: 'Object already
published'}` and leave the record untouched; otherwise push `['public']`
onto `o.tags` and save, resolving with the saved record. -/
def publish (o : DbRecord) : Except ActionError DbRecord :=
  match o.tags.find? (fun item => item == ["public"]) with
  | some _ => .error ⟨409, "Object already published"⟩
  | none => .ok { o with tags := o.tags ++ [["public"]] }

/-- `exports.unPublish` from `api/helpers/actions.js`: lodash `_.remove`
deletes every tag-group equal to `['public']` from `o.tags` and returns the
removed elements; if none were removed, reject with `{code: 409, message:
'Object already unpublished'}`; otherwise save, resolving with the saved
record. -/
def unPublish (o : DbRecord) : Except ActionError DbRecord :=
  let removed := o.tags.filter (fun item => item == ["public"])
  if removed.length == 0 then
    .error ⟨409, "Object already unpublished"⟩
  else
    .ok { o with tags := o.tags.filter (fun item => !(item == ["public"])) }

/-- `exports.delete` from `api/helpers/actions.js`: unconditionally remove
every tag-group equal to `['public']`, set `o.isDeleted = true`, and save.
There is no conflict branch — the promise only rejects on a persistence
failure, which the pure state-transition model elides. -/
def delete (o : DbRecord) : DbRecord :=
  { o with
    tags := o.tags.filter (fun item => !(item == ["public"])),
    isDeleted := true }

/-- The record state observable after an action settles: on success the saved
record's tags, on rejection the stored record is untouched. -/
def tagsAfter (result : Except ActionError DbRecord) (o : DbRecord) : List (List String) :=
  match result with
  | .ok saved => saved.tags
  | .error _ => o.tags

end Actions

/-- Helper: the find used by isPublished/publish returns none exactly when no
tag-group equals `['public']`. -/
theorem find_public_eq_none (tags : List (List String)) (hnot : ["public"] ∉ tags) :
    tags.find? (fun item => item == ["public"]) = none := by
  rw [List.find?_eq_none]
  intro x hx
  simp only [beq_iff_eq]
  intro hxe
  exact hnot (hxe ▸ hx)

/-- Helper: the find used by isPublished/publish succeeds exactly when some
tag-group equals `['public']`. -/
theorem find_public_isSome (tags : List (List String)) (hmem : ["public"] ∈ tags) :
    (tags.find? (fun item => item == ["public"])).isSome := by
  rw [List.find?_isSome]
  exact ⟨["public"], hmem, by simp⟩

/-- Helper: publish on an already-published record rejects with 409. -/
theorem publish_of_mem (o : DbRecord) (hmem : ["public"] ∈ o.tags) :
    Actions.publish o = .error ⟨409, "Object already published"⟩ := by
  unfold Actions.publish
  rcases hopt : o.tags.find? (fun item => item == ["public"]) with _ | g
  · have := find_public_isSome o.tags hmem
    rw [hopt] at this
    simp at this
  · rfl

/-- Helper: publish on an unpublished record appends `['public']`. -/
theorem publish_of_not_mem (o : DbRecord) (hnot : ["public"] ∉ o.tags) :
    Actions.publish o = .ok { o with tags := o.tags ++ [["public"]] } := by
  unfold Actions.publish
  rw [find_public_eq_none o.tags hnot]

/-- Helper: the lodash-remove result in unPublish is empty iff no tag-group
equals `['public']`. -/
theorem removed_length_zero_iff (tags : List (List String)) :
    (tags.filter (fun item => item == ["public"])).length = 0 ↔ ["public"] ∉ tags := by
  rw [List.length_eq_zero, List.filter_eq_nil_iff]
  constructor
  · intro h hmem
    have := h ["public"] hmem
    simp at this
  · intro hnot x hx
    simp only [beq_iff_eq]
    intro hxe
    exact hnot (hxe ▸ hx)

/-- Helper: unPublish on an unpublished record rejects with 409. -/
theorem unPublish_of_not_mem (o : DbRecord) (hnot : ["public"] ∉ o.tags) :
    Actions.unPublish o = .error ⟨409, "Object already unpublished"⟩ := by
  unfold Actions.unPublish
  have h0 : (o.tags.filter (fun item => item == ["public"])).length = 0 :=
    (removed_length_zero_iff o.tags).mpr hnot
  simp [h0]

/-- Helper: unPublish on a published record removes every `['public']` group
and resolves with the saved record. -/
theorem unPublish_of_mem (o : DbRecord) (hmem : ["public"] ∈ o.tags) :
    Actions.unPublish o =
      .ok { o with tags := o.tags.filter (fun item => !(item == ["public"])) } := by
  unfold Actions.unPublish
  have hne : ¬ (o.tags.filter (fun item => item == ["public"])).length = 0 := by
    rw [removed_length_zero_iff o.tags]
    exact fun h => h hmem
  simp [hne]

/-- Helper: `['public']` never survives the strip filter. -/
theorem public_not_mem_strip (tags : List (List String)) :
    ["public"] ∉ tags.filter (fun item => !(item == ["public"])) := by
  intro hcontra
  have := List.of_mem_filter hcontra
  simp at this

/-- Helper: filtering with a predicate that holds at `g` preserves the count
of `g`. -/
theorem count_filter_keep {α : Type} [BEq α] [LawfulBEq α] {p : α → Bool} {g : α}
    (hp : p g = true) : ∀ l : List α, (l.filter p).count g = l.count g := by
  intro l
  induction l with
  | nil => rfl
  | cons x xs ih =>
    rw [List.filter_cons]
    by_cases hx : p x = true
    · rw [if_pos hx, List.count_cons, List.count_cons, ih]
    · have hxg : (x == g) = false := by
        rw [beq_eq_false_iff_ne]
        intro hbe
        subst hbe
        exact hx hp
      rw [if_neg hx, List.count_cons, ih, hxg]
      rfl

/-- Helper: a group other than `['public']` does not occur in the appended
singleton `[['public']]`. -/
theorem count_public_singleton_ne (g : List String) (hg : g ≠ ["public"]) :
    ([[("public" : String)]]).count g = 0 := by
  rw [List.count_eq_zero]
  simpa using hg

/-- C3: publish on a record whose tag-groups include a group equal to
`['public']` rejects with code 409 / "Object already published", and the
stored record's tags are untouched (nothing is persisted); on a record
without such a group it resolves with the saved record, which is the input
with `['public']` appended. -/
theorem publish_conflict_or_append (o : DbRecord) :
    (["public"] ∈ o.tags →
      Actions.publish o = .error ⟨409, "Object already published"⟩ ∧
      Actions.tagsAfter (Actions.publish o) o = o.tags) ∧
    (["public"] ∉ o.tags →
      Actions.publish o = .ok { o with tags := o.tags ++ [["public"]] }) := by
  constructor
  · intro hmem
    refine ⟨publish_of_mem o hmem, ?_⟩
    rw [publish_of_mem o hmem]
    rfl
  · exact publish_of_not_mem o

/-- Witness for `publish_conflict_or_append`: a record already tagged
`[['public']]` hits the 409 branch, and one tagged `[['sysadmin']]` gets
`['public']` appended. -/
theorem publish_conflict_or_append_witness :
    (Actions.publish ⟨[["public"]], false⟩ = .error ⟨409, "Object already published"⟩ ∧
      Actions.tagsAfter (Actions.publish ⟨[["public"]], false⟩) ⟨[["public"]], false⟩ =
        [["public"]]) ∧
    Actions.publish ⟨[["sysadmin"]], false⟩ = .ok ⟨[["sysadmin"], ["public"]], false⟩ := by
  refine ⟨(publish_conflict_or_append ⟨[["public"]], false⟩).1 (by decide), ?_⟩
  exact (publish_conflict_or_append ⟨[["sysadmin"]], false⟩).2 (by decide)

/-- C4: unPublish on a record with no tag-group equal to `['public']` rejects
with code 409 / "Object already unpublished"; on a record with one or more
such groups it removes every one of them and resolves with the saved
record. -/
theorem unPublish_conflict_or_strip (o : DbRecord) :
    (["public"] ∉ o.tags →
      Actions.unPublish o = .error ⟨409, "Object already unpublished"⟩) ∧
    (["public"] ∈ o.tags →
      Actions.unPublish o =
        .ok { o with tags := o.tags.filter (fun item => !(item == ["public"])) } ∧
      ["public"] ∉ Actions.tagsAfter (Actions.unPublish o) o) := by
  refine ⟨unPublish_of_not_mem o, fun hmem => ⟨unPublish_of_mem o hmem, ?_⟩⟩
  rw [unPublish_of_mem o hmem]
  exact public_not_mem_strip o.tags

/-- Witness for `unPublish_conflict_or_strip`: a record tagged only
`[['sysadmin']]` rejects with 409, and a record tagged
`[['public'],['sysadmin'],['public']]` has both `['public']` groups
removed. -/
theorem unPublish_conflict_or_strip_witness :
    Actions.unPublish ⟨[["sysadmin"]], false⟩ = .error ⟨409, "Object already unpublished"⟩ ∧
    Actions.unPublish ⟨[["public"], ["sysadmin"], ["public"]], false⟩ =
      .ok ⟨[["sysadmin"]], false⟩ := by
  refine ⟨(unPublish_conflict_or_strip ⟨[["sysadmin"]], false⟩).1 (by decide), ?_⟩
  have h := ((unPublish_conflict_or_strip ⟨[["public"], ["sysadmin"], ["public"]], false⟩).2
    (by decide)).1
  rw [h]
  rfl

/-- C5: publish and unPublish never touch any tag-group other than the one
equal to `['public']`: for every group `g ≠ ['public']`, the number of
occurrences of `g` among the record's tag-groups after the action settles
(whether it resolved or rejected) equals the number before. -/
theorem publish_unPublish_frame (o : DbRecord) (g : List String) (hg : g ≠ ["public"]) :
    (Actions.tagsAfter (Actions.publish o) o).count g = o.tags.count g ∧
    (Actions.tagsAfter (Actions.unPublish o) o).count g = o.tags.count g := by
  constructor
  · by_cases hmem : ["public"] ∈ o.tags
    · rw [publish_of_mem o hmem]
      rfl
    · rw [publish_of_not_mem o hmem]
      show (o.tags ++ [["public"]]).count g = o.tags.count g
      rw [List.count_append, count_public_singleton_ne g hg]
      rfl
  · by_cases hmem : ["public"] ∈ o.tags
    · rw [unPublish_of_mem o hmem]
      show (o.tags.filter (fun item => !(item == ["public"]))).count g = o.tags.count g
      refine count_filter_keep ?_ o.tags
      show (!(g == ["public"])) = true
      simp [hg]
    · rw [unPublish_of_not_mem o hmem]
      rfl

/-- Witness for `publish_unPublish_frame`: the group `['sysadmin']` keeps its
single occurrence in `[['sysadmin'],['public']]` under both operations. -/
theorem publish_unPublish_frame_witness :
    (Actions.tagsAfter (Actions.publish ⟨[["sysadmin"], ["public"]], false⟩)
        ⟨[["sysadmin"], ["public"]], false⟩).count ["sysadmin"] =
      ([[("sysadmin" : String)], ["public"]]).count ["sysadmin"] ∧
    (Actions.tagsAfter (Actions.unPublish ⟨[["sysadmin"], ["public"]], false⟩)
        ⟨[["sysadmin"], ["public"]], false⟩).count ["sysadmin"] =
      ([[("sysadmin" : String)], ["public"]]).count ["sysadmin"] :=
  publish_unPublish_frame ⟨[["sysadmin"], ["public"]], false⟩ ["sysadmin"] (by decide)

/-- C6: delete always succeeds regardless of publish or prior-delete state:
it removes every tag-group equal to `['public']` (a no-op on the tags when
none is present), preserves every other tag-group's occurrence count, sets
the soft-delete flag, and running it twice gives the same stored state as
running it once. -/
theorem delete_strips_public_and_idempotent (o : DbRecord) :
    (Actions.delete o).isDeleted = true ∧
    ["public"] ∉ (Actions.delete o).tags ∧
    (["public"] ∉ o.tags → (Actions.delete o).tags = o.tags) ∧
    (∀ g, g ≠ ["public"] → (Actions.delete o).tags.count g = o.tags.count g) ∧
    Actions.delete (Actions.delete o) = Actions.delete o := by
  refine ⟨rfl, public_not_mem_strip o.tags, ?_, ?_, ?_⟩
  · intro hnot
    show o.tags.filter (fun item => !(item == ["public"])) = o.tags
    rw [List.filter_eq_self]
    intro x hx
    simp only [Bool.not_eq_true', beq_eq_false_iff_ne, ne_eq]
    intro hxe
    exact hnot (hxe ▸ hx)
  · intro g hg
    refine count_filter_keep ?_ o.tags
    show (!(g == ["public"])) = true
    simp [hg]
  · show Actions.delete
      ⟨o.tags.filter (fun item => !(item == ["public"])), true⟩ =
      ⟨o.tags.filter (fun item => !(item == ["public"])), true⟩
    unfold Actions.delete
    simp only [DbRecord.mk.injEq, and_true]
    rw [List.filter_eq_self]
    intro x hx
    simpa using List.of_mem_filter hx

/-- Witness for `delete_strips_public_and_idempotent` at concrete records: a
published record is stripped and flagged, an unpublished record's tags are
untouched, and a second delete changes nothing. -/
theorem delete_strips_public_and_idempotent_witness :
    (Actions.delete ⟨[["public"], ["sysadmin"]], false⟩).isDeleted = true ∧
    ["public"] ∉ (Actions.delete ⟨[["public"], ["sysadmin"]], false⟩).tags ∧
    (Actions.delete ⟨[["sysadmin"]], true⟩).tags = [["sysadmin"]] ∧
    (Actions.delete ⟨[["public"], ["sysadmin"]], false⟩).tags.count ["sysadmin"] =
      ([[("public" : String)], ["sysadmin"]]).count ["sysadmin"] ∧
    Actions.delete (Actions.delete ⟨[["public"], ["sysadmin"]], false⟩) =
      Actions.delete ⟨[["public"], ["sysadmin"]], false⟩ := by
  obtain ⟨h1, h2, -, h4, h5⟩ :=
    delete_strips_public_and_idempotent ⟨[["public"], ["sysadmin"]], false⟩
  obtain ⟨-, -, h3, -, -⟩ := delete_strips_public_and_idempotent ⟨[["sysadmin"]], true⟩
  exact ⟨h1, h2, h3 (by decide), h4 ["sysadmin"] (by decide), h5⟩

/-- C10: the publish marker is exactly the singleton group `['public']`: for
a record none of whose tag-groups equals `['public']` even though some group
contains the role string "public" (for example `['public','sysadmin']`),
isPublished returns none, publish succeeds by appending a separate
`['public']` group, and unPublish rejects with 409. -/
theorem isPublished_exact_singleton (o : DbRecord)
    (hnot : ["public"] ∉ o.tags) (_hsome : ∃ g ∈ o.tags, "public" ∈ g) :
    Actions.isPublished o = none ∧
    Actions.publish o = .ok { o with tags := o.tags ++ [["public"]] } ∧
    Actions.unPublish o = .error ⟨409, "Object already unpublished"⟩ := by
  refine ⟨?_, publish_of_not_mem o hnot, unPublish_of_not_mem o hnot⟩
  unfold Actions.isPublished
  exact find_public_eq_none o.tags hnot

/-- Witness for `isPublished_exact_singleton` at the record tagged
`[['public','sysadmin']]`. -/
theorem isPublished_exact_singleton_witness :
    Actions.isPublished ⟨[["public", "sysadmin"]], false⟩ = none ∧
    Actions.publish ⟨[["public", "sysadmin"]], false⟩ =
      .ok ⟨[["public", "sysadmin"], ["public"]], false⟩ ∧
    Actions.unPublish ⟨[["public", "sysadmin"]], false⟩ =
      .error ⟨409, "Object already unpublished"⟩ :=
  isPublished_exact_singleton ⟨[["public", "sysadmin"]], false⟩ (by decide)
    ⟨["public", "sysadmin"], by decide, by decide⟩

end Acrfd

namespace Acrfd

namespace Utils

/-- `DEFAULT_PAGESIZE` from `api/helpers/utils.js`. -/
def DEFAULT_PAGESIZE : Int := 100

/-- The `params` object `getSkipLimitParameters` returns: `skip` and `limit`
are either both present or both absent. -/
structure PageParams where
  skip : Option Int
  limit : Option Int
deriving DecidableEq, Repr

/-- `exports.getSkipLimitParameters` from `api/helpers/utils.js`. The inputs
are swagger parameter objects carrying a `.value`; an absent parameter or an
undefined value is `none` here. The page size used is the supplied value
when it is `> 0`, else the default 100; skip/limit are set only when a page
number `>= 0` is supplied. -/
def getSkipLimitParameters (pageSize : Option Int) (pageNum : Option Int) : PageParams :=
  let ps : Int :=
    match pageSize with
    | some v => if v > 0 then v else DEFAULT_PAGESIZE
    | none => DEFAULT_PAGESIZE
  match pageNum with
  | some n =>
      if n ≥ 0 then { skip := some (n * ps), limit := some ps }
      else { skip := none, limit := none }
  | none => { skip := none, limit := none }

/-- `$setIsSubset: [fieldTag, role]` from the `$redact` stage of
`runDataQuery` (`api/helpers/utils.js`): array-as-set containment of the
document tag-group in the caller's role list. -/
def setIsSubset (fieldTag : List String) (role : List String) : Bool :=
  fieldTag.all (fun t => role.contains t)

/-- The `$cond.if` of the `$redact` stage: `$anyElementTrue` over
`$map: {input: tags, in: $setIsSubset [fieldTag, role]}`. -/
def redactKeep (role : List String) (tags : List (List String)) : Bool :=
  tags.any (fun fieldTag => setIsSubset fieldTag role)

/-- The document-level effect of the `$redact` stage shared by `runDataQuery`
(`api/helpers/utils.js`) and `getDocuments`
(`api/controllers/document.js`): keep (DESCEND into) a document when some
tag-group is a subset of the caller role list, else PRUNE it. -/
def redactStage (role : List String) (docs : List DbRecord) : List DbRecord :=
  docs.filter (fun d => redactKeep role d.tags)

end Utils

/-- Helper: the redact condition holds iff some tag-group is contained in the
caller role set. -/
theorem redactKeep_iff (role : List String) (tags : List (List String)) :
    Utils.redactKeep role tags = true ↔ ∃ g ∈ tags, ∀ t ∈ g, t ∈ role := by
  simp [Utils.redactKeep, Utils.setIsSubset, List.any_eq_true, List.all_eq_true]

/-- C1: a document survives the redaction stage iff at least one of its
tag-groups is a subset of the caller role set; in particular a caller with
role set exactly `['public']` gets, from a mixed fixture, exactly the
records carrying a tag-group contained in `{public}` and none whose every
tag-group requires another role. -/
theorem redact_keeps_iff_subset (role : List String) (docs : List DbRecord) (d : DbRecord) :
    (d ∈ Utils.redactStage role docs ↔
      d ∈ docs ∧ ∃ g ∈ d.tags, ∀ t ∈ g, t ∈ role) ∧
    Utils.redactStage ["public"]
        [⟨[["public"], ["sysadmin"]], false⟩,
          ⟨[["public"]], false⟩,
          ⟨[["sysadmin"]], false⟩] =
      [⟨[["public"], ["sysadmin"]], false⟩, ⟨[["public"]], false⟩] := by
  constructor
  · rw [Utils.redactStage, List.mem_filter, redactKeep_iff]
  · rfl

/-- C7: with no page number the window applies neither skip nor limit; with a
page number `n ≥ 0` it is `skip = n * ps`, `limit = ps`, where `ps` is the
supplied page size when `> 0` and 100 otherwise; in particular page 2 with
page size 10 gives skip 20, limit 10. -/
theorem getSkipLimitParameters_window (pageSize : Option Int) (n : Int) (hn : 0 ≤ n) :
    Utils.getSkipLimitParameters pageSize none = { skip := none, limit := none } ∧
    (∀ v, pageSize = some v → 0 < v →
      Utils.getSkipLimitParameters pageSize (some n) =
        { skip := some (n * v), limit := some v }) ∧
    (∀ v, pageSize = some v → ¬ 0 < v →
      Utils.getSkipLimitParameters pageSize (some n) =
        { skip := some (n * 100), limit := some 100 }) ∧
    (pageSize = none →
      Utils.getSkipLimitParameters pageSize (some n) =
        { skip := some (n * 100), limit := some 100 }) ∧
    Utils.getSkipLimitParameters (some 10) (some 2) =
      { skip := some 20, limit := some 10 } := by
  refine ⟨?_, ?_, ?_, ?_, by decide⟩
  · cases pageSize <;> rfl
  · intro v hv hvpos
    subst hv
    unfold Utils.getSkipLimitParameters
    simp [hvpos, hn, Utils.DEFAULT_PAGESIZE]
  · intro v hv hvneg
    subst hv
    unfold Utils.getSkipLimitParameters
    simp [hvneg, hn, Utils.DEFAULT_PAGESIZE]
  · intro hv
    subst hv
    unfold Utils.getSkipLimitParameters
    simp [hn, Utils.DEFAULT_PAGESIZE]

/-- Witness for `getSkipLimitParameters_window` at page size 10, page number
2: skip 20, limit 10; and with no page number, no window. -/
theorem getSkipLimitParameters_window_witness :
    Utils.getSkipLimitParameters (some 10) none = { skip := none, limit := none } ∧
    Utils.getSkipLimitParameters (some 10) (some 2) =
      { skip := some 20, limit := some 10 } ∧
    Utils.getSkipLimitParameters none (some 2) =
      { skip := some 200, limit := some 100 } := by
  obtain ⟨h1, h2, -, h4, -⟩ := getSkipLimitParameters_window (some 10) 2 (by decide)
  obtain ⟨-, -, -, h4n, -⟩ := getSkipLimitParameters_window none 2 (by decide)
  exact ⟨h1, by simpa using h2 10 rfl (by decide), by simpa using h4n rfl⟩

end Acrfd

namespace Acrfd

namespace Ttls

/-- A stored Feature as the registry-sync code sees it: the owning
Application reference (`applicationID`) and a payload standing in for the
rest of the document (geometry and properties), which lets distinct stored
Features be told apart. -/
structure FeatureRec where
  applicationID : Nat
  payload : String
deriving DecidableEq, Repr

/-- The store's `deleteOne(filter)` operation, the call
`deleteAllApplicationFeatures` actually issues
(`featureModel.deleteOne({ applicationID: ... })`): it deletes at most one
— the first — matching document. -/
def deleteOne {α : Type} (p : α → Bool) : List α → List α
  | [] => []
  | x :: xs => if p x then xs else x :: deleteOne p xs

/-- `deleteAllApplicationFeatures` from `ttlsUtils.js` (the shapes-update
job carries the same body): one `deleteOne` with the applicationID
filter. -/
def deleteAllApplicationFeatures (appId : Nat) (store : List FeatureRec) : List FeatureRec :=
  deleteOne (fun f => f.applicationID == appId) store

/-- The Feature-store effect of one successful `updateApplication` run once
the registry record is found: `deleteAllApplicationFeatures`, then
`updateFeatures` saves one new Feature per registry parcel, sequentially,
via `saveFeature` (each referencing the owning application). -/
def refreshFeatures (appId : Nat) (parcels : List String) (store : List FeatureRec) :
    List FeatureRec :=
  deleteAllApplicationFeatures appId store ++ parcels.map (fun d => ⟨appId, d⟩)

/-- One interested-party element of the registry response
(`obj.interestedParties`), restricted to the fields the assembly loop
reads. -/
structure RegParty where
  interestedPartyType : String
  firstName : String
  lastName : String
  legalName : String
  divisionBranch : String
deriving DecidableEq, Repr

/-- The `partyObj` assembled per party in `getApplicationByDispositionID`:
individual parties get first/last name, organization parties get legal
name/division branch. -/
structure PartyObj where
  interestedPartyType : String
  firstName : Option String
  lastName : Option String
  legalName : Option String
  divisionBranch : Option String
deriving DecidableEq, Repr

/-- The per-party object construction in the interested-parties loop of
`getApplicationByDispositionID`. -/
def mkPartyObj (party : RegParty) : PartyObj :=
  if party.interestedPartyType == "I" then
    { interestedPartyType := party.interestedPartyType
      firstName := some party.firstName
      lastName := some party.lastName
      legalName := none
      divisionBranch := none }
  else
    { interestedPartyType := party.interestedPartyType
      firstName := none
      lastName := none
      legalName := some party.legalName
      divisionBranch := some party.divisionBranch }

/-- lodash `_.includes(array, value)` uses SameValueZero, which for objects
is reference identity. Object references are modelled as allocation ids
(the first component of each list entry). -/
def includesRef (acc : List (Nat × PartyObj)) (ref : Nat) : Bool :=
  acc.any (fun entry => entry.1 == ref)

/-- One iteration of the interested-parties loop: `partyObj` is a freshly
allocated object (a new allocation id), pushed unless `_.includes` already
finds that reference in the list. -/
def pushParty (st : List (Nat × PartyObj) × Nat) (party : RegParty) :
    List (Nat × PartyObj) × Nat :=
  let partyObj := mkPartyObj party
  let ref := st.2
  (if includesRef st.1 ref then st.1 else st.1 ++ [(ref, partyObj)], ref + 1)

/-- The `application.interestedParties` list assembled by
`getApplicationByDispositionID` (allocation ids erased at the end). -/
def buildInterestedParties (parties : List RegParty) : List PartyObj :=
  ((parties.foldl pushParty ([], 0)).1).map (fun entry => entry.2)

end Ttls

/-- C2 (code bug): with two stored Features owned by the Application and a
registry record that is found, `deleteAllApplicationFeatures` — implemented
with the store's `deleteOne` — removes only the first Feature, so after a
successful refresh the second pre-refresh Feature is still in the store,
contradicting the claim and the function's own name and doc comment. -/
theorem refresh_leaves_stale_feature :
    Ttls.deleteAllApplicationFeatures 1 [⟨1, "oldA"⟩, ⟨1, "oldB"⟩] = [⟨1, "oldB"⟩] ∧
    Ttls.refreshFeatures 1 ["parcel1"] [⟨1, "oldA"⟩, ⟨1, "oldB"⟩] =
      [⟨1, "oldB"⟩, ⟨1, "parcel1"⟩] ∧
    (⟨1, "oldB"⟩ : Ttls.FeatureRec) ∈
      Ttls.refreshFeatures 1 ["parcel1"] [⟨1, "oldA"⟩, ⟨1, "oldB"⟩] := by
  refine ⟨rfl, rfl, ?_⟩
  simp [Ttls.refreshFeatures, Ttls.deleteAllApplicationFeatures, Ttls.deleteOne]

/-- C8 (code bug): two interested-party entries with identical field values
are both kept — `_.includes` looks for the freshly created `partyObj` by
reference, never finds it, and so never deduplicates; the assembled list
contains the identical party twice. -/
theorem interestedParties_not_deduplicated :
    Ttls.buildInterestedParties
        [⟨"I", "John", "Smith", "", ""⟩, ⟨"I", "John", "Smith", "", ""⟩] =
      [Ttls.mkPartyObj ⟨"I", "John", "Smith", "", ""⟩,
        Ttls.mkPartyObj ⟨"I", "John", "Smith", "", ""⟩] ∧
    (Ttls.buildInterestedParties
        [⟨"I", "John", "Smith", "", ""⟩, ⟨"I", "John", "Smith", "", ""⟩]).length = 2 :=
  ⟨rfl, rfl⟩

end Acrfd

namespace Acrfd

namespace Migration

/-- A Feature's `geometry` sub-document as stored: its `type` string, an
optional top-level `coordinates` field (the old bare shape), and an
optional `geometries` field (the GeometryCollection shape). -/
inductive Geometry where
| mk (gtype : String) (coordinates : Option (List (Int × Int)))
    (geometries : Option (List Geometry))

/-- The `$match` condition of the migration aggregate:
`'geometry.coordinates': {$exists: 1}`. -/
def Geometry.hasCoordinates : Geometry → Bool
| .mk _ coordinates _ => coordinates.isSome

/-- The new geometry computed by the aggregation stages: `type` forced to
GeometryCollection, no top-level `coordinates`, and `geometries` holding
the saved old geometry as its sole element. -/
def Geometry.wrap (g : Geometry) : Geometry :=
  .mk "GeometryCollection" none (some [g])

/-- A record of the features collection: its identifier and geometry. -/
structure FeatureDoc where
  id : Nat
  geometry : Geometry

/-- The per-record effect of one migration run: records matched by
`geometry.coordinates exists` get the new wrapped geometry via the targeted
update; all other records are untouched. -/
def migrateFeatureDoc (f : FeatureDoc) : FeatureDoc :=
  if f.geometry.hasCoordinates then { f with geometry := f.geometry.wrap } else f

/-- One run of `migrateGeometryToGeometryCollection.js` over the features
collection. -/
def migrate (fs : List FeatureDoc) : List FeatureDoc :=
  fs.map migrateFeatureDoc

end Migration

/-- Helper: a wrapped geometry no longer has a top-level coordinates field,
so a migrated record does not match the migration condition again. -/
theorem migrateFeatureDoc_idem (f : Migration.FeatureDoc) :
    Migration.migrateFeatureDoc (Migration.migrateFeatureDoc f) =
      Migration.migrateFeatureDoc f := by
  unfold Migration.migrateFeatureDoc
  by_cases h : f.geometry.hasCoordinates = true
  · rw [if_pos h]
    have hw : (Migration.Geometry.wrap f.geometry).hasCoordinates = false := rfl
    simp [hw]
  · rw [if_neg h, if_neg h]

/-- C9: the geometry-collection migration converts exactly the records whose
geometry has a top-level coordinates field into the GeometryCollection shape
wrapping the original geometry as sole element, and a second run changes no
record because migrated records no longer match the condition. -/
theorem migrate_idempotent (fs : List Migration.FeatureDoc) :
    Migration.migrate (Migration.migrate fs) = Migration.migrate fs ∧
    (∀ f ∈ fs, f.geometry.hasCoordinates = true →
      Migration.migrateFeatureDoc f = { f with geometry := f.geometry.wrap }) ∧
    (∀ f ∈ fs, f.geometry.hasCoordinates = false →
      Migration.migrateFeatureDoc f = f) := by
  refine ⟨?_, ?_, ?_⟩
  · show (fs.map Migration.migrateFeatureDoc).map Migration.migrateFeatureDoc =
      fs.map Migration.migrateFeatureDoc
    rw [List.map_map]
    exact List.map_congr_left (fun f _ => migrateFeatureDoc_idem f)
  · intro f _ hf
    unfold Migration.migrateFeatureDoc
    rw [if_pos hf]
  · intro f _ hf
    unfold Migration.migrateFeatureDoc
    rw [if_neg (by simp [hf])]

/-- Witness for `migrate_idempotent` on a one-record collection in the old
bare-geometry shape: one run wraps it, the second run changes nothing. -/
theorem migrate_idempotent_witness :
    Migration.migrate (Migration.migrate
        [⟨7, .mk "Polygon" (some [(0, 0), (0, 1)]) none⟩]) =
      Migration.migrate [⟨7, .mk "Polygon" (some [(0, 0), (0, 1)]) none⟩] ∧
    Migration.migrateFeatureDoc ⟨7, .mk "Polygon" (some [(0, 0), (0, 1)]) none⟩ =
      ⟨7, (Migration.Geometry.mk "Polygon" (some [(0, 0), (0, 1)]) none).wrap⟩ := by
  obtain ⟨h1, h2, -⟩ :=
    migrate_idempotent [⟨7, .mk "Polygon" (some [(0, 0), (0, 1)]) none⟩]
  exact ⟨h1, h2 ⟨7, .mk "Polygon" (some [(0, 0), (0, 1)]) none⟩ (by simp) rfl⟩

end Acrfd
